import Mathlib

/-!
Verification development for the escape-time fractal renderer
(`fractalAnimator.cpp`).  The C++ code is embedded shallowly over `ℝ`
(doubles/floats become reals, machine ints become `ℕ`/`ℤ`), and the claims
of the specification are settled as theorems about these definitions.
-/

/-- `ESCAPE_RADIUS_SQUARED = 100.0 * 100.0` from the source. -/
def ESC2 : ℝ := 100 * 100

/-- `zr2 + zi2`, the squared magnitude the loop tests against `ESC2`. -/
def normSq (z : ℝ × ℝ) : ℝ := z.1 * z.1 + z.2 * z.2

/-- Result of `calculateFractal`.  The C++ `ReturnInfo` encodes "interior" as
`iteration == -1` (with the other fields uninitialized and never read);
here the two shapes are the two constructors. -/
inductive FracResult where
  | interior : FracResult
  | escaped (iteration : ℕ) (smoothIteration : ℝ) (stripeSum : ℝ) : FracResult

/-- The smooth coloring formula `i + 1 - log(log(zr2 + zi2) / 2) / log(2)`
applied at iteration `i` to the current `z`. -/
noncomputable def smoothIter (i : ℕ) (z : ℝ × ℝ) : ℝ :=
  (i : ℝ) + 1 - Real.log (Real.log (normSq z) / 2) / Real.log 2

/-- One pass of the iteration loop body: from old `(zr, zi)` the code computes
`zi' = (fractalType == 0 ? 2*zr*zi : 2*fabs(zr*zi)) + ci_actual` and
`zr' = zr2 - zi2 + cr_actual` (both from the OLD values). -/
def step (ft : ℕ) (c : ℝ × ℝ) (z : ℝ × ℝ) : ℝ × ℝ :=
  (z.1 * z.1 - z.2 * z.2 + c.1,
   (if ft = 0 then 2 * z.1 * z.2 else 2 * |z.1 * z.2|) + c.2)

/-- The sequence of `z` values the loop passes through: `traj 0` is the
initial `z`, `traj (n+1)` is the value after `n+1` loop passes. -/
def traj (ft : ℕ) (c z0 : ℝ × ℝ) : ℕ → ℝ × ℝ
  | 0 => z0
  | n + 1 => step ft c (traj ft c z0 n)

/-- `atan2(zi, zr)` of C, modelled as the principal argument of `zr + zi·I`. -/
noncomputable def atan2 (zi zr : ℝ) : ℝ := Complex.arg ⟨zr, zi⟩

/-- The stripe statistic the loop accumulates: after `n` passes it has added
`powf(sin(atan2(zi, zr) * stripeFrequency), 2.0)` once for each computed `z`
(the values `traj 1 .. traj n`); nothing is added when `stripes` is off. -/
noncomputable def stripeAcc (stripes : Bool) (freq : ℝ) (ft : ℕ) (c z0 : ℝ × ℝ) : ℕ → ℝ
  | 0 => 0
  | n + 1 =>
    stripeAcc stripes freq ft c z0 n +
      (if stripes then
        Real.sin (atan2 (traj ft c z0 (n + 1)).2 (traj ft c z0 (n + 1)).1 * freq) ^ 2
      else 0)

/-- The main iteration loop of `calculateFractal` (lines 116-148).  `fuel` is
a bound on the remaining passes (the loop itself has none; calls use
`fuel = maxIter` so that `none` — fuel exhausted with the loop still
running — is exactly the case `maxIter = 0`, where the C++ loop never
reaches its `i == maxIter` exit). -/
noncomputable def calcLoop (c : ℝ × ℝ) (ft : ℕ) (stripes : Bool) (freq : ℝ)
    (inner : Bool) (maxIter : ℕ) : ℝ × ℝ → ℝ → ℕ → ℕ → Option FracResult
  | z, s, i, 0 =>
    if ESC2 ≤ normSq z then some (FracResult.escaped i (smoothIter i z) s) else none
  | z, s, i, fuel + 1 =>
    if ESC2 ≤ normSq z then some (FracResult.escaped i (smoothIter i z) s)
    else
      let z' := step ft c z
      let s' := if stripes then s + Real.sin (atan2 z'.2 z'.1 * freq) ^ 2 else s
      if i + 1 = maxIter then
        some (if inner then FracResult.escaped (i + 1) (smoothIter (i + 1) z') s'
              else FracResult.interior)
      else
        calcLoop c ft stripes freq inner maxIter z' s' (i + 1) fuel

/-- The main-cardioid early-bailout test
`q * (q + (cr - 0.25)) < 0.25 * ci * ci` with `q = (cr-0.25)^2 + ci^2`. -/
def cardioidCheck (cr ci : ℝ) : Prop :=
  ((cr - 0.25) * (cr - 0.25) + ci * ci) *
      (((cr - 0.25) * (cr - 0.25) + ci * ci) + (cr - 0.25)) < 0.25 * (ci * ci)

/-- The period-2 bulb early-bailout test `(cr+1)^2 + ci^2 < 0.0625`. -/
def bulbCheck (cr ci : ℝ) : Prop :=
  (cr + 1) * (cr + 1) + ci * ci < 0.0625

/-- Guard of the early-bailout block: only taken for
`!innerCalculation && !isJulia && fractalType == 0` and a point passing the
cardioid or period-2 bulb test. -/
def earlyBailout (cr ci : ℝ) (isJulia : Bool) (ft : ℕ) (inner : Bool) : Prop :=
  inner = false ∧ isJulia = false ∧ ft = 0 ∧ (cardioidCheck cr ci ∨ bulbCheck cr ci)

/-- `zr/zi` initialisation: the sample point in Julia mode, `(0,0)` otherwise. -/
def initialZ (cr ci : ℝ) (isJulia : Bool) : ℝ × ℝ :=
  if isJulia then (cr, ci) else (0, 0)

/-- `cr_actual/ci_actual`: the Julia seed in Julia mode, the sample otherwise. -/
def constC (cr ci jr ji : ℝ) (isJulia : Bool) : ℝ × ℝ :=
  if isJulia then (jr, ji) else (cr, ci)

open Classical in
/-- `calculateFractal` (lines 91-149): mode selection, early bailout, then the
iteration loop with `fuel = maxIter`. -/
noncomputable def calculateFractalOpt (cr ci jr ji : ℝ) (maxIter : ℕ) (isJulia : Bool)
    (fractalType : ℕ) (stripes : Bool) (stripeFrequency : ℝ)
    (innerCalculation : Bool) : Option FracResult :=
  if earlyBailout cr ci isJulia fractalType innerCalculation then
    some FracResult.interior
  else
    calcLoop (constC cr ci jr ji isJulia) fractalType stripes stripeFrequency
      innerCalculation maxIter (initialZ cr ci isJulia) 0 0 maxIter

/-! ### Loop invariant lemmas -/

/-- If the loop is entered with `z` already past the escape radius, the
`while` condition fails at once and the current counter is returned — this
is how an iteration count of `0` arises. -/
theorem calcLoop_entry_escaped (c : ℝ × ℝ) (ft : ℕ) (stripes : Bool) (freq : ℝ)
    (inner : Bool) (maxIter : ℕ) (z : ℝ × ℝ) (s : ℝ) (i fuel : ℕ)
    (h : ESC2 ≤ normSq z) :
    calcLoop c ft stripes freq inner maxIter z s i fuel =
      some (FracResult.escaped i (smoothIter i z) s) := by
  cases fuel <;> simp only [calcLoop] <;> rw [if_pos h]

theorem traj_succ_eq (ft : ℕ) (c z0 : ℝ × ℝ) (n : ℕ) :
    step ft c (traj ft c z0 n) = traj ft c z0 (n + 1) := rfl

theorem stripeAcc_succ_eq (stripes : Bool) (freq : ℝ) (ft : ℕ) (c z0 : ℝ × ℝ) (n : ℕ) :
    (if stripes then
        stripeAcc stripes freq ft c z0 n +
          Real.sin (atan2 (traj ft c z0 (n + 1)).2 (traj ft c z0 (n + 1)).1 * freq) ^ 2
      else stripeAcc stripes freq ft c z0 n) =
      stripeAcc stripes freq ft c z0 (n + 1) := by
  cases stripes <;> simp [stripeAcc]

/-- Running the loop from pass `i` when the first escape happens at pass
`J < maxIter`: the loop returns `escaped J` with the smooth value and stripe
sum taken at `traj J`. -/
theorem calcLoop_escape_spec (c : ℝ × ℝ) (ft : ℕ) (stripes : Bool) (freq : ℝ)
    (inner : Bool) (maxIter : ℕ) (z0 : ℝ × ℝ) :
    ∀ fuel i J : ℕ, i + fuel = maxIter → i ≤ J → J < maxIter →
      (∀ j, i ≤ j → j < J → normSq (traj ft c z0 j) < ESC2) →
      ESC2 ≤ normSq (traj ft c z0 J) →
      calcLoop c ft stripes freq inner maxIter (traj ft c z0 i)
          (stripeAcc stripes freq ft c z0 i) i fuel =
        some (FracResult.escaped J (smoothIter J (traj ft c z0 J))
          (stripeAcc stripes freq ft c z0 J)) := by
  intro fuel
  induction fuel with
  | zero =>
    intro i J h1 h2 h3 _ _
    omega
  | succ fuel ih =>
    intro i J h1 h2 h3 h4 h5
    rcases eq_or_lt_of_le h2 with rfl | hlt
    · exact calcLoop_entry_escaped _ _ _ _ _ _ _ _ _ _ h5
    · have hne : ¬ ESC2 ≤ normSq (traj ft c z0 i) := not_le.mpr (h4 i le_rfl hlt)
      rw [calcLoop, if_neg hne]
      dsimp only
      have hcap : ¬ (i + 1 = maxIter) := by omega
      rw [traj_succ_eq, stripeAcc_succ_eq, if_neg hcap]
      exact ih (i + 1) J (by omega) (by omega) h3
        (fun j hj1 hj2 => h4 j (by omega) hj2) h5

/-- Running the loop from pass `i` when no tested pass up to the cap escapes:
the loop hits `i == maxIter` and returns the interior/inner-cap result. -/
theorem calcLoop_cap_spec (c : ℝ × ℝ) (ft : ℕ) (stripes : Bool) (freq : ℝ)
    (inner : Bool) (maxIter : ℕ) (z0 : ℝ × ℝ) :
    ∀ fuel i : ℕ, i + fuel = maxIter → i < maxIter →
      (∀ j, i ≤ j → j < maxIter → normSq (traj ft c z0 j) < ESC2) →
      calcLoop c ft stripes freq inner maxIter (traj ft c z0 i)
          (stripeAcc stripes freq ft c z0 i) i fuel =
        some (if inner then
            FracResult.escaped maxIter (smoothIter maxIter (traj ft c z0 maxIter))
              (stripeAcc stripes freq ft c z0 maxIter)
          else FracResult.interior) := by
  intro fuel
  induction fuel with
  | zero =>
    intro i h1 h2 _
    omega
  | succ fuel ih =>
    intro i h1 h2 h3
    have hne : ¬ ESC2 ≤ normSq (traj ft c z0 i) := not_le.mpr (h3 i le_rfl h2)
    rw [calcLoop, if_neg hne]
    dsimp only
    rw [traj_succ_eq, stripeAcc_succ_eq]
    by_cases hcap : i + 1 = maxIter
    · rw [if_pos hcap, hcap]
    · rw [if_neg hcap]
      exact ih (i + 1) (by omega) (by omega) (fun j hj1 hj2 => h3 j (by omega) hj2)

/-- The returned escape index is never below the counter the loop was
entered with. -/
theorem calcLoop_escaped_ge (c : ℝ × ℝ) (ft : ℕ) (stripes : Bool) (freq : ℝ)
    (inner : Bool) (maxIter : ℕ) :
    ∀ (fuel i : ℕ) (z : ℝ × ℝ) (s : ℝ) (J : ℕ) (sm st : ℝ),
      calcLoop c ft stripes freq inner maxIter z s i fuel =
        some (FracResult.escaped J sm st) → i ≤ J := by
  intro fuel
  induction fuel with
  | zero =>
    intro i z s J sm st heq
    rw [calcLoop] at heq
    by_cases h : ESC2 ≤ normSq z
    · rw [if_pos h] at heq
      simp only [Option.some.injEq] at heq
      injection heq with h1 _ _
      omega
    · rw [if_neg h] at heq
      simp at heq
  | succ fuel ih =>
    intro i z s J sm st heq
    rw [calcLoop] at heq
    by_cases h : ESC2 ≤ normSq z
    · rw [if_pos h] at heq
      simp only [Option.some.injEq] at heq
      injection heq with h1 _ _
      omega
    · rw [if_neg h] at heq
      dsimp only at heq
      by_cases hcap : i + 1 = maxIter
      · rw [if_pos hcap] at heq
        cases inner with
        | false => simp at heq
        | true =>
          simp only [if_true, Option.some.injEq] at heq
          injection heq with h1 _ _
          omega
      · rw [if_neg hcap] at heq
        have := ih (i + 1) _ _ J sm st heq
        omega

/-- If the loop is entered with a non-escaped `z`, an escape result can only
carry an index strictly greater than the entry counter. -/
theorem calcLoop_escaped_gt (c : ℝ × ℝ) (ft : ℕ) (stripes : Bool) (freq : ℝ)
    (inner : Bool) (maxIter : ℕ) (fuel i : ℕ) (z : ℝ × ℝ) (s : ℝ) (J : ℕ) (sm st : ℝ)
    (hz : normSq z < ESC2)
    (heq : calcLoop c ft stripes freq inner maxIter z s i fuel =
      some (FracResult.escaped J sm st)) : i + 1 ≤ J := by
  have hne : ¬ ESC2 ≤ normSq z := not_le.mpr hz
  cases fuel with
  | zero =>
    rw [calcLoop, if_neg hne] at heq
    simp at heq
  | succ fuel =>
    rw [calcLoop, if_neg hne] at heq
    dsimp only at heq
    by_cases hcap : i + 1 = maxIter
    · rw [if_pos hcap] at heq
      cases inner with
      | false => simp at heq
      | true =>
        simp only [if_true, Option.some.injEq] at heq
        injection heq with h1 _ _
        omega
    · rw [if_neg hcap] at heq
      exact calcLoop_escaped_ge c ft stripes freq inner maxIter fuel (i + 1) _ _ J sm st heq

/-! ### Colors, palettes and the color mapping -/

/-- An RGB color; channels are byte values stored as `ℕ`. -/
structure Color where
  r : ℕ
  g : ℕ
  b : ℕ
deriving DecidableEq

/-- `sf::Color(0, 0, 0)`. -/
def black : Color := ⟨0, 0, 0⟩

/-- `PALETTES[0]` from the source. -/
def palette0 : List Color :=
  [⟨66, 30, 15⟩, ⟨25, 7, 26⟩, ⟨9, 1, 47⟩, ⟨4, 4, 73⟩, ⟨0, 7, 100⟩,
   ⟨12, 44, 138⟩, ⟨24, 82, 177⟩, ⟨57, 125, 209⟩, ⟨134, 181, 229⟩,
   ⟨211, 236, 248⟩, ⟨241, 233, 191⟩, ⟨248, 201, 95⟩, ⟨255, 170, 0⟩,
   ⟨204, 128, 0⟩, ⟨153, 87, 0⟩]

/-- `PALETTES[1]` from the source. -/
def palette1 : List Color := [⟨0, 0, 0⟩, ⟨255, 255, 255⟩]

/-- The process-wide palette table. -/
def PALETTES : List (List Color) := [palette0, palette1]

/-- `PALETTES[state.colorScheme % PALETTES.size()]`. -/
def paletteOf (scheme : ℕ) : List Color :=
  PALETTES.getD (scheme % PALETTES.length) []

/-- `interpolateColors` (lines 82-88): channel-wise
`static_cast<sf::Uint8>(c1.r + factor * (c2.r - c1.r))`; the value is in
byte range for `factor ∈ [0,1)`, where the cast is truncation (= floor on
the nonnegative values that occur). -/
noncomputable def interpolateColors (c1 c2 : Color) (factor : ℝ) : Color :=
  ⟨(⌊(c1.r : ℝ) + factor * ((c2.r : ℝ) - (c1.r : ℝ))⌋).toNat,
   (⌊(c1.g : ℝ) + factor * ((c2.g : ℝ) - (c1.g : ℝ))⌋).toNat,
   (⌊(c1.b : ℝ) + factor * ((c2.b : ℝ) - (c1.b : ℝ))⌋).toNat⟩

/-- C++ `static_cast<int>` on a real value: truncation toward zero. -/
noncomputable def ctrunc (x : ℝ) : ℤ :=
  if 0 ≤ x then ⌊x⌋ else -⌊-x⌋

/-- `static_cast<int>(iterations) % palette.size()`: the `int` operand is
converted to `size_t` (wrapping modulo `2^64`, which is what a negative
truncated value hits) and reduced modulo the palette size. -/
noncomputable def cppIndex (m : ℝ) (n : ℕ) : ℕ :=
  ((ctrunc m) % (2 ^ 64 : ℤ)).toNat % n

/-- The color computation of lines 267-269 (identical in
`calculateAntiAliasedColor`, lines 190-192): truncated index, floor-based
fraction, interpolation between consecutive palette entries. -/
noncomputable def cppColorMap (m : ℝ) (pal : List Color) : Color :=
  interpolateColors (pal.getD (cppIndex m pal.length) black)
    (pal.getD ((cppIndex m pal.length + 1) % pal.length) black)
    (m - ⌊m⌋)

/-- The color map as the spec states it (§4.2): `index = floor(metric) mod
paletteSize`, `fraction = metric - floor(metric)`, linear interpolation
between `palette[index]` and `palette[(index+1) mod paletteSize]`.  Written
from the spec's words, to be compared with `cppColorMap`. -/
noncomputable def specColorMap (m : ℝ) (pal : List Color) : Color :=
  interpolateColors (pal.getD ((⌊m⌋ % (pal.length : ℤ)).toNat) black)
    (pal.getD (((⌊m⌋ % (pal.length : ℤ)).toNat + 1) % pal.length) black)
    (m - ⌊m⌋)

/-! ### Render state, pixel transforms and the per-pixel pipeline -/

/-- `ASPECT_RATIO = WINDOW_WIDTH / WINDOW_HEIGHT = (192*7) / (108*7)`. -/
noncomputable def ASPECT : ℝ := 1344 / 756

/-- The `RenderState` struct (lines 32-54).  `double`/`float` fields become
`ℝ`; the ints (`maxIterations`, `colorScheme`, `fractalType`) only ever hold
nonnegative values in the program and become `ℕ`. -/
structure RenderState where
  viewportX : ℝ
  viewportY : ℝ
  viewportHeight : ℝ
  maxIterations : ℕ
  colorDensity : ℝ
  showJulia : Bool
  juliaX : ℝ
  juliaY : ℝ
  colorScheme : ℕ
  autoIterations : Bool
  fractalType : ℕ
  stripes : Bool
  stripeFrequency : ℝ
  stripeIntensity : ℝ
  innerCalculation : Bool
  antiAliasing : Bool

/-- `getViewportWidth()`: `viewportHeight * ASPECT_RATIO`. -/
noncomputable def viewportWidth (s : RenderState) : ℝ := s.viewportHeight * ASPECT

/-- The default-constructed `RenderState` of the source (lines 33-48). -/
noncomputable def initialRenderState : RenderState :=
  { viewportX := -0.5, viewportY := 0, viewportHeight := 3, maxIterations := 128,
    colorDensity := 0.2, showJulia := false, juliaX := -0.8, juliaY := 0.156,
    colorScheme := 0, autoIterations := true, fractalType := 0, stripes := false,
    stripeFrequency := 5, stripeIntensity := 10, innerCalculation := false,
    antiAliasing := false }

/-- The single-sample x coordinate of `renderFractalRegion` (line 249):
`state.viewportX - halfWidth + x * pixelWidth`. -/
noncomputable def sampleCoordX (s : RenderState) (x w : ℕ) : ℝ :=
  s.viewportX - viewportWidth s / 2 + (x : ℝ) * (viewportWidth s / (w : ℝ))

/-- The single-sample y coordinate of `renderFractalRegion` (line 250):
`state.viewportY - halfHeight + y * pixelHeight`. -/
noncomputable def sampleCoordY (s : RenderState) (y h : ℕ) : ℝ :=
  s.viewportY - s.viewportHeight / 2 + (y : ℝ) * (s.viewportHeight / (h : ℝ))

/-- Lines 256-270 (= lines 179-193 of the AA path): interior → black,
otherwise the stripe or smooth metric is mapped through the palette.
A `none` evaluator result only arises for `maxIterations = 0`, where the
C++ loop never returns; `black` is an arbitrary placeholder there. -/
noncomputable def colorForResult (s : RenderState) (pal : List Color) :
    Option FracResult → Color
  | some FracResult.interior => black
  | none => black
  | some (FracResult.escaped i sm st) =>
    cppColorMap
      (if s.stripes then s.stripeIntensity * (st / (i : ℝ)) else sm * s.colorDensity)
      pal

/-- Evaluator plus color mapping at an arbitrary complex coordinate, with all
fractal parameters taken from the render state. -/
noncomputable def pipelineColorAt (s : RenderState) (cr ci : ℝ) (pal : List Color) : Color :=
  colorForResult s pal
    (calculateFractalOpt cr ci s.juliaX s.juliaY s.maxIterations s.showJulia
      s.fractalType s.stripes s.stripeFrequency s.innerCalculation)

/-- `AA_MAX_SAMPLES = 6`. -/
def AA_MAX_SAMPLES : ℕ := 6

/-- One sub-sample of `calculateAntiAliasedColor` (lines 164-196): offsets
`(sx + 0.5) / samples` within the pixel. -/
noncomputable def aaSampleColor (samples : ℕ) (s : RenderState) (x y w h sx sy : ℕ)
    (pal : List Color) : Color :=
  pipelineColorAt s
    (s.viewportX - viewportWidth s / 2 +
      ((x : ℝ) + ((sx : ℝ) + 0.5) / (samples : ℝ)) * (viewportWidth s / (w : ℝ)))
    (s.viewportY - s.viewportHeight / 2 +
      ((y : ℝ) + ((sy : ℝ) + 0.5) / (samples : ℝ)) * (s.viewportHeight / (h : ℝ)))
    pal

/-- `calculateAntiAliasedColor` (lines 152-213) with the grid size as a
parameter (the source fixes `samples = AA_MAX_SAMPLES + 1`): collect the
`samples × samples` sub-sample colors (outer loop `sy`, inner `sx`) and
average channel-wise with integer truncation. -/
noncomputable def calculateAntiAliasedColor (samples : ℕ) (s : RenderState)
    (x y w h : ℕ) (pal : List Color) : Color :=
  let colors :=
    ((List.range samples).map (fun sy =>
      (List.range samples).map (fun sx => aaSampleColor samples s x y w h sx sy pal))).flatten
  ⟨(colors.map (fun col => col.r)).sum / colors.length,
   (colors.map (fun col => col.g)).sum / colors.length,
   (colors.map (fun col => col.b)).sum / colors.length⟩

/-- The single-sample branch of `renderFractalRegion` (lines 247-270). -/
noncomputable def singleSamplePixel (s : RenderState) (x y w h : ℕ) : Color :=
  pipelineColorAt s (sampleCoordX s x w) (sampleCoordY s y h)
    (paletteOf s.colorScheme)

/-- The per-pixel color of `renderFractalRegion`: anti-aliased (7×7 grid)
or single-sample, with the palette selected by `colorScheme`. -/
noncomputable def pixelColor (s : RenderState) (x y w h : ℕ) : Color :=
  if s.antiAliasing then
    calculateAntiAliasedColor (AA_MAX_SAMPLES + 1) s x y w h (paletteOf s.colorScheme)
  else singleSamplePixel s x y w h

/-! ### The tiled renderer -/

/-- The caller-owned byte buffer, as a map from byte index to byte value. -/
def Buf : Type := ℕ → ℕ

/-- Lines 273-277: write R, G, B and a 255 alpha at `(y*width + x)*4`. -/
def writePixelBytes (buf : Buf) (w x y : ℕ) (col : Color) : Buf :=
  fun n =>
    if n = (y * w + x) * 4 then col.r
    else if n = (y * w + x) * 4 + 1 then col.g
    else if n = (y * w + x) * 4 + 2 then col.b
    else if n = (y * w + x) * 4 + 3 then 255
    else buf n

/-- The inner `x` loop of `renderFractalRegion` for one row `y`. -/
noncomputable def renderRow (s : RenderState) (w h y : ℕ) (buf : Buf) : Buf :=
  (List.range w).foldl (fun b x => writePixelBytes b w x y (pixelColor s x y w h)) buf

/-- `count` consecutive rows starting at row `y` (the `y` loop of
`renderFractalRegion`, counted instead of bounded). -/
noncomputable def renderRows (s : RenderState) (w h : ℕ) : ℕ → ℕ → Buf → Buf
  | _, 0, buf => buf
  | y, count + 1, buf => renderRows s w h (y + 1) count (renderRow s w h y buf)

/-- `renderFractalRegion(pixels, state, startY, endY, width, height)`
(lines 232-280): rows `startY ≤ y < endY`. -/
noncomputable def renderFractalRegion (s : RenderState) (startY endY w h : ℕ)
    (buf : Buf) : Buf :=
  renderRows s w h startY (endY - startY) buf

/-- Band start row of worker `i` in `renderFractal`: `i * linesPerThread`
with `linesPerThread = height / N`. -/
def bandStart (N h i : ℕ) : ℕ := i * (h / N)

/-- Band end row of worker `i`: `height` for the last worker, else
`(i+1) * linesPerThread`. -/
def bandEnd (N h i : ℕ) : ℕ := if i = N - 1 then h else (i + 1) * (h / N)

/-- `renderFractal` (lines 216-229) with the worker count as a parameter
(the source uses the global `NUM_THREADS ≥ 1`).  The workers write disjoint
row ranges of the shared buffer and are joined before use, so the final
buffer equals the sequential composition of the per-band regions. -/
noncomputable def renderFractal (N : ℕ) (s : RenderState) (w h : ℕ) (buf : Buf) : Buf :=
  (List.range N).foldl
    (fun b i => renderFractalRegion s (bandStart N h i) (bandEnd N h i) w h b) buf

/-! ### The iteration controller -/

/-- `adjustIterations` (lines 305-311): when `autoIterations` is set,
`maxIterations = max(100, min(10000, int(100 * log10(1 + 3.0/viewportHeight))))`
(`zoomFactor = 3.0 / viewportHeight`; C `log10` is `Real.logb 10`). -/
noncomputable def adjustIterations (s : RenderState) : RenderState :=
  if s.autoIterations then
    { s with maxIterations :=
        (max 100 (min 10000 (ctrunc (100 * Real.logb 10 (1 + 3 / s.viewportHeight))))).toNat }
  else s

/-! ### Claims about the escape evaluator -/

/-- C1: for every sample point (with the early bailout not taken, which is
C6's concern), `calculateFractal` iterates `z ← f(z) + c` with `f` as
implemented by `step` (variant 0: `zr² - zi²`, `2·zr·zi`; variant 1: same
real part, absolute value of the cross term before doubling); the loop stops
exactly at the first tested pass `J < maxIterations` whose `|z|² ≥ 100²`
(returning the smoothed value `J + 1 - log(log(|z|²)/2)/log(2)` on the
post-escape `z`), and otherwise at the iteration cap. -/
theorem C1_escape_iteration (cr ci jr ji : ℝ) (maxIter : ℕ) (isJulia : Bool)
    (ft : ℕ) (stripes : Bool) (freq : ℝ) (inner : Bool)
    (hnb : ¬ earlyBailout cr ci isJulia ft inner) (hmi : 1 ≤ maxIter) :
    (∀ J : ℕ, J < maxIter →
      (∀ j, j < J →
        normSq (traj ft (constC cr ci jr ji isJulia) (initialZ cr ci isJulia) j) < ESC2) →
      ESC2 ≤ normSq (traj ft (constC cr ci jr ji isJulia) (initialZ cr ci isJulia) J) →
      calculateFractalOpt cr ci jr ji maxIter isJulia ft stripes freq inner =
        some (FracResult.escaped J
          ((J : ℝ) + 1 -
            Real.log (Real.log (normSq
              (traj ft (constC cr ci jr ji isJulia) (initialZ cr ci isJulia) J)) / 2) /
              Real.log 2)
          (stripeAcc stripes freq ft (constC cr ci jr ji isJulia)
            (initialZ cr ci isJulia) J)))
    ∧ ((∀ j, j < maxIter →
        normSq (traj ft (constC cr ci jr ji isJulia) (initialZ cr ci isJulia) j) < ESC2) →
      calculateFractalOpt cr ci jr ji maxIter isJulia ft stripes freq inner =
        some (if inner then
            FracResult.escaped maxIter
              (smoothIter maxIter
                (traj ft (constC cr ci jr ji isJulia) (initialZ cr ci isJulia) maxIter))
              (stripeAcc stripes freq ft (constC cr ci jr ji isJulia)
                (initialZ cr ci isJulia) maxIter)
          else FracResult.interior)) := by
  constructor
  · intro J hJ hmin hesc
    rw [calculateFractalOpt, if_neg hnb]
    exact calcLoop_escape_spec _ _ _ _ _ _ _ maxIter 0 J (by omega) (by omega) hJ
      (fun j _ hj => hmin j hj) hesc
  · intro hall
    rw [calculateFractalOpt, if_neg hnb]
    exact calcLoop_cap_spec _ _ _ _ _ _ _ maxIter 0 (by omega) (by omega)
      (fun j _ hj => hall j hj)

/-- Witness for C1 at a concrete input: a Julia sample at `(200, 0)` escapes
at the very first test. -/
theorem C1_escape_iteration_witness :
    (¬ earlyBailout 200 0 true 0 false) ∧
    ESC2 ≤ normSq (traj 0 (constC 200 0 0 0 true) (initialZ 200 0 true) 0) ∧
    calculateFractalOpt 200 0 0 0 1 true 0 false 0 false =
      some (FracResult.escaped 0
        ((0 : ℕ) + 1 -
          Real.log (Real.log (normSq
            (traj 0 (constC 200 0 0 0 true) (initialZ 200 0 true) 0)) / 2) /
            Real.log 2)
        (stripeAcc false 0 0 (constC 200 0 0 0 true) (initialZ 200 0 true) 0)) := by
  have hnb : ¬ earlyBailout 200 0 true 0 false := by simp [earlyBailout]
  have hesc : ESC2 ≤ normSq (traj 0 (constC 200 0 0 0 true) (initialZ 200 0 true) 0) := by
    norm_num [traj, initialZ, normSq, ESC2]
  exact ⟨hnb, hesc,
    (C1_escape_iteration 200 0 0 0 1 true 0 false 0 false hnb (by norm_num)).1 0
      (by norm_num) (fun j hj => absurd hj (Nat.not_lt_zero j)) hesc⟩

/-- C5: a sample that does not escape within `maxIterations` tested passes is
reported "interior" when interior coloring is off (and the renderer paints
interior results pure black), and with interior coloring on it gets exactly
the smoothed value and stripe sum an escape at the cap iteration would
produce. -/
theorem C5_interior_handling (cr ci jr ji : ℝ) (maxIter : ℕ) (isJulia : Bool)
    (ft : ℕ) (stripes : Bool) (freq : ℝ) (inner : Bool) (hmi : 1 ≤ maxIter)
    (hno : ∀ j, j < maxIter →
      normSq (traj ft (constC cr ci jr ji isJulia) (initialZ cr ci isJulia) j) < ESC2) :
    (inner = false →
      calculateFractalOpt cr ci jr ji maxIter isJulia ft stripes freq inner =
        some FracResult.interior
      ∧ ∀ (s : RenderState) (pal : List Color),
          colorForResult s pal (some FracResult.interior) = black)
    ∧ (inner = true →
      calculateFractalOpt cr ci jr ji maxIter isJulia ft stripes freq inner =
        some (FracResult.escaped maxIter
          (smoothIter maxIter
            (traj ft (constC cr ci jr ji isJulia) (initialZ cr ci isJulia) maxIter))
          (stripeAcc stripes freq ft (constC cr ci jr ji isJulia)
            (initialZ cr ci isJulia) maxIter))) := by
  constructor
  · rintro rfl
    constructor
    · by_cases hb : earlyBailout cr ci isJulia ft false
      · rw [calculateFractalOpt, if_pos hb]
      · rw [calculateFractalOpt, if_neg hb]
        have := calcLoop_cap_spec (constC cr ci jr ji isJulia) ft stripes freq false
          maxIter (initialZ cr ci isJulia) maxIter 0 (by omega) (by omega)
          (fun j _ hj => hno j hj)
        simpa using this
    · intro s pal
      rfl
  · rintro rfl
    have hb : ¬ earlyBailout cr ci isJulia ft true := by simp [earlyBailout]
    rw [calculateFractalOpt, if_neg hb]
    have := calcLoop_cap_spec (constC cr ci jr ji isJulia) ft stripes freq true
      maxIter (initialZ cr ci isJulia) maxIter 0 (by omega) (by omega)
      (fun j _ hj => hno j hj)
    simpa using this

/-- Witness for C5: with `maxIterations = 1` the Mandelbrot sample `c = 0`
never escapes its single tested pass and is reported interior and painted
black. -/
theorem C5_interior_handling_witness :
    calculateFractalOpt 0 0 0 0 1 false 0 false 0 false = some FracResult.interior
    ∧ ∀ (s : RenderState) (pal : List Color),
        colorForResult s pal (some FracResult.interior) = black := by
  refine (C5_interior_handling 0 0 0 0 1 false 0 false 0 false (by norm_num) ?_).1 rfl
  intro j hj
  interval_cases j
  norm_num [traj, initialZ, normSq, ESC2]

/-- C10: for `maxIterations ≥ 1` the evaluator always returns (the loop runs
at most `maxIterations` passes — the returned escape index never exceeds the
cap, and the `none` fuel-exhaustion case of the model is unreachable). -/
theorem C10_termination (cr ci jr ji : ℝ) (maxIter : ℕ) (isJulia : Bool)
    (ft : ℕ) (stripes : Bool) (freq : ℝ) (inner : Bool) (hmi : 1 ≤ maxIter) :
    ∃ r : FracResult,
      calculateFractalOpt cr ci jr ji maxIter isJulia ft stripes freq inner = some r
      ∧ ∀ (J : ℕ) (sm st : ℝ), r = FracResult.escaped J sm st → J ≤ maxIter := by
  classical
  by_cases hb : earlyBailout cr ci isJulia ft inner
  · refine ⟨FracResult.interior, by rw [calculateFractalOpt, if_pos hb], ?_⟩
    intro J sm st h
    simp at h
  · by_cases hall : ∀ j, j < maxIter →
      normSq (traj ft (constC cr ci jr ji isJulia) (initialZ cr ci isJulia) j) < ESC2
    · have hcap := calcLoop_cap_spec (constC cr ci jr ji isJulia) ft stripes freq inner
        maxIter (initialZ cr ci isJulia) maxIter 0 (by omega) (by omega)
        (fun j _ hj => hall j hj)
      refine ⟨_, by rw [calculateFractalOpt, if_neg hb]; simpa using hcap, ?_⟩
      intro J sm st h
      cases inner with
      | false => simp at h
      | true =>
        simp only [if_true] at h
        injection h with h1 _ _
        omega
    · push_neg at hall
      obtain ⟨j0, hj0, hesc0⟩ := hall
      have hex : ∃ j, j < maxIter ∧ ESC2 ≤
          normSq (traj ft (constC cr ci jr ji isJulia) (initialZ cr ci isJulia) j) :=
        ⟨j0, hj0, hesc0⟩
      have hspec := Nat.find_spec hex
      have hescJ := calcLoop_escape_spec (constC cr ci jr ji isJulia) ft stripes freq inner
        maxIter (initialZ cr ci isJulia) maxIter 0 (Nat.find hex) (by omega) (by omega)
        hspec.1 ?_ hspec.2
      · refine ⟨_, by rw [calculateFractalOpt, if_neg hb]; simpa using hescJ, ?_⟩
        intro J sm st h
        injection h with h1 _ _
        omega
      · intro j _ hj
        by_contra hc
        exact absurd ⟨by omega, not_lt.mp hc⟩ (Nat.find_min hex hj)

/-- Witness for C10 at a concrete input. -/
theorem C10_termination_witness :
    ∃ r : FracResult,
      calculateFractalOpt 0 0 0 0 5 false 0 false 0 false = some r
      ∧ ∀ (J : ℕ) (sm st : ℝ), r = FracResult.escaped J sm st → J ≤ 5 :=
  C10_termination 0 0 0 0 5 false 0 false 0 false (by norm_num)

/-- C3 (amended): whenever the initial iterated value satisfies
`|z₀|² < escapeRadius²` — always true in Mandelbrot mode, where `z₀ = 0` —
the iteration count of an escape result is ≥ 1, so the stripe branch's
division is by a positive count; and palette indexing is always reduced
modulo a non-empty palette. -/
theorem C3_division_safety (cr ci jr ji : ℝ) (maxIter : ℕ) (isJulia : Bool)
    (ft : ℕ) (stripes : Bool) (freq : ℝ) (inner : Bool)
    (hz : normSq (initialZ cr ci isJulia) < ESC2) :
    (∀ (J : ℕ) (sm st : ℝ),
      calculateFractalOpt cr ci jr ji maxIter isJulia ft stripes freq inner =
        some (FracResult.escaped J sm st) → 1 ≤ J)
    ∧ (∀ scheme : ℕ, paletteOf scheme ≠ [] ∧
        ∀ m : ℝ, cppIndex m (paletteOf scheme).length < (paletteOf scheme).length) := by
  constructor
  · intro J sm st heq
    by_cases hb : earlyBailout cr ci isJulia ft inner
    · rw [calculateFractalOpt, if_pos hb] at heq
      simp at heq
    · rw [calculateFractalOpt, if_neg hb] at heq
      exact calcLoop_escaped_gt _ _ _ _ _ _ _ _ _ _ _ _ _ hz heq
  · intro scheme
    have hlen : PALETTES.length = 2 := rfl
    have hm : scheme % PALETTES.length = 0 ∨ scheme % PALETTES.length = 1 := by
      rw [hlen]
      omega
    rcases hm with h | h
    · constructor
      · rw [paletteOf, h]
        decide
      · intro m
        have h15 : (paletteOf scheme).length = 15 := by rw [paletteOf, h]; decide
        rw [h15]
        exact Nat.mod_lt _ (by norm_num)
    · constructor
      · rw [paletteOf, h]
        decide
      · intro m
        have h2 : (paletteOf scheme).length = 2 := by rw [paletteOf, h]; decide
        rw [h2]
        exact Nat.mod_lt _ (by norm_num)

/-- Witness for C3 at a concrete input (Mandelbrot mode, `z₀ = 0`). -/
theorem C3_division_safety_witness :
    (∀ (J : ℕ) (sm st : ℝ),
      calculateFractalOpt 0 0 0 0 128 false 0 true 5 false =
        some (FracResult.escaped J sm st) → 1 ≤ J)
    ∧ (∀ scheme : ℕ, paletteOf scheme ≠ [] ∧
        ∀ m : ℝ, cppIndex m (paletteOf scheme).length < (paletteOf scheme).length) :=
  C3_division_safety 0 0 0 0 128 false 0 true 5 false
    (by norm_num [initialZ, normSq, ESC2])

/-- Counterexample to C3 as stated: in Julia mode the sample `(200, 0)` is
already outside the escape radius, the loop body never runs, and the
evaluator returns an escape result with iteration count 0 while the stripe
branch is active — the stripe average then divides by zero. -/
theorem C3_counterexample :
    ¬ (∀ (J : ℕ) (sm st : ℝ),
      calculateFractalOpt 200 0 0 0 128 true 0 true 5 false =
        some (FracResult.escaped J sm st) → 1 ≤ J) := by
  intro h
  have hb : ¬ earlyBailout 200 0 true 0 false := by simp [earlyBailout]
  have heval : calculateFractalOpt 200 0 0 0 128 true 0 true 5 false =
      some (FracResult.escaped 0 (smoothIter 0 (200, 0)) 0) := by
    rw [calculateFractalOpt, if_neg hb]
    exact calcLoop_entry_escaped _ _ _ _ _ _ _ _ _ _ (by norm_num [normSq, ESC2, initialZ])
  have := h 0 _ _ heval
  omega

/-! ### Claims about the color mapping -/

/-- For a nonnegative metric below the `int` range, the code's truncated,
unsigned-wrapped index agrees with the spec's `floor … mod` index. -/
theorem cppIndex_eq_of_nonneg (m : ℝ) (n : ℕ) (h0 : 0 ≤ m) (h31 : m < 2 ^ 31) :
    cppIndex m n = (⌊m⌋ % (n : ℤ)).toNat := by
  have hfl0 : 0 ≤ ⌊m⌋ := Int.floor_nonneg.mpr h0
  have hlt : ⌊m⌋ < 2 ^ 31 := by
    have h1 : (⌊m⌋ : ℝ) < 2 ^ 31 := lt_of_le_of_lt (Int.floor_le m) h31
    exact_mod_cast h1
  rw [cppIndex, ctrunc, if_pos h0, Int.emod_eq_of_lt hfl0 (by omega)]
  rcases Nat.eq_zero_or_pos n with rfl | hn
  · simp
  · have hcast : (((⌊m⌋.toNat % n : ℕ) : ℤ)) = ⌊m⌋ % (n : ℤ) := by
      push_cast [Int.toNat_of_nonneg hfl0]
      ring
    omega

/-- For a nonnegative metric below the `int` range, the code's color mapping
is exactly the spec's. -/
theorem cppColorMap_eq_specColorMap (m : ℝ) (pal : List Color)
    (h0 : 0 ≤ m) (h31 : m < 2 ^ 31) :
    cppColorMap m pal = specColorMap m pal := by
  rw [cppColorMap, specColorMap, cppIndex_eq_of_nonneg m pal.length h0 h31]

/-- The spec's color map is cyclic in the palette size, for every real
metric and every `k`. -/
theorem specColorMap_add_nat (m : ℝ) (pal : List Color) (k : ℕ) :
    specColorMap (m + k * pal.length) pal = specColorMap m pal := by
  have hcast : ((k : ℝ) * (pal.length : ℝ)) = ((k * pal.length : ℕ) : ℝ) := by
    push_cast
    ring
  rw [specColorMap, specColorMap, hcast, Int.floor_add_nat]
  have hidx : (⌊m⌋ + (k * pal.length : ℕ)) % (pal.length : ℤ) = ⌊m⌋ % (pal.length : ℤ) := by
    push_cast
    rw [mul_comm, Int.add_mul_emod_self_left]
  rw [hidx]
  congr 1
  push_cast
  ring

/-- C4 (amended): for every real metric with `0 ≤ metric < 2^31` (the
`int`-representable nonnegative range) and every palette, the mapped color
equals the spec's linear interpolation between `palette[floor(metric) mod
size]` and the next entry with fraction `metric - floor(metric)`. -/
theorem C4_color_mapping (m : ℝ) (pal : List Color) (h0 : 0 ≤ m) (h31 : m < 2 ^ 31) :
    cppColorMap m pal = specColorMap m pal :=
  cppColorMap_eq_specColorMap m pal h0 h31

/-- Witness for C4 at a concrete metric and palette. -/
theorem C4_color_mapping_witness :
    cppColorMap (1 / 2 : ℝ) palette0 = specColorMap (1 / 2 : ℝ) palette0 :=
  C4_color_mapping (1 / 2 : ℝ) palette0 (by norm_num) (by norm_num)

/-- C9 (amended): cyclicity of the code's color map holds for `0 ≤ metric`
and nonnegative integer `k` with `metric + k·paletteSize` below the `int`
range. -/
theorem C9_color_cyclic (m : ℝ) (pal : List Color) (k : ℕ)
    (h0 : 0 ≤ m) (h31 : m + k * pal.length < 2 ^ 31) :
    cppColorMap (m + k * pal.length) pal = cppColorMap m pal := by
  have hkn : (0 : ℝ) ≤ (k : ℝ) * (pal.length : ℝ) := by positivity
  have hm31 : m < 2 ^ 31 := lt_of_le_of_lt (le_add_of_nonneg_right hkn) h31
  rw [cppColorMap_eq_specColorMap (m + k * pal.length) pal (by linarith) h31,
    cppColorMap_eq_specColorMap m pal h0 hm31]
  exact specColorMap_add_nat m pal k

/-- Witness for C9 at a concrete metric, palette and `k`. -/
theorem C9_color_cyclic_witness :
    cppColorMap (1 / 2 + ((1 : ℕ) : ℝ) * (palette0.length : ℝ)) palette0 =
      cppColorMap (1 / 2 : ℝ) palette0 := by
  have hlen : (palette0.length : ℝ) = 15 := by
    rw [show palette0.length = 15 from rfl]
    norm_num
  exact C9_color_cyclic (1 / 2 : ℝ) palette0 1 (by norm_num) (by rw [hlen]; norm_num)

/-- Counterexample to C4 as stated: at the negative metric `-3/2` the code's
`static_cast<int>` truncates toward zero and wraps through the unsigned
conversion (index 0), while the spec's `floor … mod` gives index 13 — the
resulting colors differ. -/
theorem C4_counterexample :
    cppColorMap (-3 / 2 : ℝ) palette0 ≠ specColorMap (-3 / 2 : ℝ) palette0 := by
  have h3 : ⌊(-3 / 2 : ℝ)⌋ = -2 := Int.floor_eq_iff.mpr (by norm_num)
  have h32 : ⌊(3 / 2 : ℝ)⌋ = 1 := Int.floor_eq_iff.mpr (by norm_num)
  have hctr : ctrunc (-3 / 2 : ℝ) = -1 := by
    rw [ctrunc, if_neg (by norm_num : ¬ (0 : ℝ) ≤ -3 / 2),
      show (-(-3 / 2 : ℝ)) = 3 / 2 by norm_num, h32]
  have hlen : palette0.length = 15 := rfl
  have hidx : cppIndex (-3 / 2 : ℝ) 15 = 0 := by
    rw [cppIndex, hctr]
    decide
  have hsidx : (⌊(-3 / 2 : ℝ)⌋ % ((15 : ℕ) : ℤ)).toNat = 13 := by
    rw [h3]
    decide
  have e0 : palette0.getD 0 black = ⟨66, 30, 15⟩ := rfl
  have e1 : palette0.getD ((0 + 1) % 15) black = ⟨25, 7, 26⟩ := rfl
  have e13 : palette0.getD 13 black = ⟨204, 128, 0⟩ := rfl
  have e14 : palette0.getD ((13 + 1) % 15) black = ⟨153, 87, 0⟩ := rfl
  intro h
  rw [cppColorMap, specColorMap, hlen, hidx, hsidx, h3, e0, e1, e13, e14,
    interpolateColors, interpolateColors] at h
  simp only [Color.mk.injEq] at h
  obtain ⟨h1, -, -⟩ := h
  norm_num [show ⌊(91 / 2 : ℝ)⌋ = 45 from Int.floor_eq_iff.mpr (by norm_num),
    show ⌊(357 / 2 : ℝ)⌋ = 178 from Int.floor_eq_iff.mpr (by norm_num)] at h1
  omega

/-- Counterexample to C9 as stated: cyclicity fails at the negative metric
`-1/2` with `k = 1` — truncation toward zero maps both `-1/2` and `29/2`
to different palette cells than a genuine mod-15 shift would. -/
theorem C9_counterexample :
    cppColorMap ((-1 / 2 : ℝ) + 1 * (palette0.length : ℝ)) palette0 ≠
      cppColorMap (-1 / 2 : ℝ) palette0 := by
  have hm : ((-1 / 2 : ℝ) + 1 * (palette0.length : ℝ)) = 29 / 2 := by
    rw [show palette0.length = 15 from rfl]
    norm_num
  rw [hm]
  have h29 : ⌊(29 / 2 : ℝ)⌋ = 14 := Int.floor_eq_iff.mpr (by norm_num)
  have h12 : ⌊(1 / 2 : ℝ)⌋ = 0 := Int.floor_eq_iff.mpr (by norm_num)
  have hm1 : ⌊(-1 / 2 : ℝ)⌋ = -1 := Int.floor_eq_iff.mpr (by norm_num)
  have hctr29 : ctrunc (29 / 2 : ℝ) = 14 := by
    rw [ctrunc, if_pos (by norm_num : (0 : ℝ) ≤ 29 / 2), h29]
  have hctrm : ctrunc (-1 / 2 : ℝ) = 0 := by
    rw [ctrunc, if_neg (by norm_num : ¬ (0 : ℝ) ≤ -1 / 2),
      show (-(-1 / 2 : ℝ)) = 1 / 2 by norm_num, h12]
    norm_num
  have hlen : palette0.length = 15 := rfl
  have hidx29 : cppIndex (29 / 2 : ℝ) 15 = 14 := by
    rw [cppIndex, hctr29]
    decide
  have hidxm : cppIndex (-1 / 2 : ℝ) 15 = 0 := by
    rw [cppIndex, hctrm]
    decide
  have e14 : palette0.getD 14 black = ⟨153, 87, 0⟩ := rfl
  have e15 : palette0.getD ((14 + 1) % 15) black = ⟨66, 30, 15⟩ := rfl
  have e0 : palette0.getD 0 black = ⟨66, 30, 15⟩ := rfl
  have e1 : palette0.getD ((0 + 1) % 15) black = ⟨25, 7, 26⟩ := rfl
  intro h
  rw [cppColorMap, cppColorMap, hlen, hidx29, hidxm, h29, hm1, e14, e15, e1,
    interpolateColors, interpolateColors] at h
  simp only [Color.mk.injEq] at h
  obtain ⟨h1, -, -⟩ := h
  norm_num [show ⌊(219 / 2 : ℝ)⌋ = 109 from Int.floor_eq_iff.mpr (by norm_num),
    show ⌊(91 / 2 : ℝ)⌋ = 45 from Int.floor_eq_iff.mpr (by norm_num)] at h1
  omega

/-! ### Claims about the pixel transform and supersampling -/

/-- C2 (amended): the single-sample path maps pixel `(x, y)` to
`viewportX - viewportWidth/2 + x·viewportWidth/width` (offsets 0, i.e. pixel
corners, not centers), while the supersampling grid uses offsets
`(k + 0.5)/S`; consequently a 1×1 effective grid produces the color of the
evaluation pipeline at the pixel-center coordinate — not, in general, the
single-sample path's own corner sample. -/
theorem C2_sampling_paths :
    (∀ (s : RenderState) (x y w h : ℕ) (pal : List Color),
      calculateAntiAliasedColor 1 s x y w h pal =
        pipelineColorAt s
          (s.viewportX - viewportWidth s / 2 +
            ((x : ℝ) + 0.5) * (viewportWidth s / (w : ℝ)))
          (s.viewportY - s.viewportHeight / 2 +
            ((y : ℝ) + 0.5) * (s.viewportHeight / (h : ℝ)))
          pal)
    ∧ (∀ (s : RenderState) (x y w h : ℕ),
      singleSamplePixel s x y w h =
        pipelineColorAt s
          (s.viewportX - viewportWidth s / 2 + (x : ℝ) * (viewportWidth s / (w : ℝ)))
          (s.viewportY - s.viewportHeight / 2 + (y : ℝ) * (s.viewportHeight / (h : ℝ)))
          (paletteOf s.colorScheme)) := by
  constructor
  · intro s x y w h pal
    have hsub : aaSampleColor 1 s x y w h 0 0 pal =
        pipelineColorAt s
          (s.viewportX - viewportWidth s / 2 +
            ((x : ℝ) + 0.5) * (viewportWidth s / (w : ℝ)))
          (s.viewportY - s.viewportHeight / 2 +
            ((y : ℝ) + 0.5) * (s.viewportHeight / (h : ℝ)))
          pal := by
      rw [aaSampleColor]
      norm_num
    have hr1 : List.range 1 = [0] := rfl
    rw [calculateAntiAliasedColor]
    simp only [hr1, List.map_cons, List.map_nil, List.flatten_cons,
      List.flatten_nil, List.append_nil, List.sum_cons, List.sum_nil, List.length_cons,
      List.length_nil, Nat.add_zero, Nat.zero_add, Nat.div_one, hsub]
  · intro s x y w h
    rfl

/-- Counterexample to C2 as stated: at the default render state, pixel
`x = 0` of a 100-pixel-wide image, the single-sample coordinate is the pixel
corner, not the claimed pixel center. -/
theorem C2_counterexample :
    sampleCoordX initialRenderState 0 100 ≠
      initialRenderState.viewportX - viewportWidth initialRenderState / 2 +
        (((0 : ℕ) : ℝ) + 0.5) * (viewportWidth initialRenderState / ((100 : ℕ) : ℝ)) := by
  have hvp : viewportWidth initialRenderState = 16 / 3 := by
    rw [viewportWidth, ASPECT]
    norm_num [initialRenderState]
  rw [sampleCoordX, hvp]
  norm_num [initialRenderState]

/-! ### Claims about the iteration controller -/

/-- Clamping before truncating (as the spec words it) agrees with the code's
truncate-then-clamp, for the nonnegative values that occur. -/
theorem ctrunc_clamp_comm (x : ℝ) (hx : 0 ≤ x) :
    max 100 (min 10000 (ctrunc x)) = ctrunc (max 100 (min 10000 x)) := by
  have h100 : ⌊(100 : ℝ)⌋ = 100 := Int.floor_eq_iff.mpr (by norm_num)
  have h10000 : ⌊(10000 : ℝ)⌋ = 10000 := Int.floor_eq_iff.mpr (by norm_num)
  have hcl : (0 : ℝ) ≤ max 100 (min 10000 x) := le_max_of_le_left (by norm_num)
  rw [ctrunc, if_pos hx, ctrunc, if_pos hcl]
  rcases le_total x 100 with h | h
  · rw [min_eq_right (by linarith : x ≤ (10000 : ℝ)), max_eq_left h, h100]
    have h3 : ⌊x⌋ ≤ 100 := by
      have h4 := Int.floor_le_floor h
      rwa [h100] at h4
    omega
  · rcases le_total x 10000 with h' | h'
    · rw [min_eq_right h', max_eq_right h]
      have h3 : 100 ≤ ⌊x⌋ := Int.le_floor.mpr (by exact_mod_cast h)
      have h4 : ⌊x⌋ ≤ 10000 := by
        have h5 := Int.floor_le_floor h'
        rwa [h10000] at h5
      omega
    · rw [min_eq_left h', max_eq_right (by norm_num : (100 : ℝ) ≤ 10000), h10000]
      have h3 : 10000 ≤ ⌊x⌋ := Int.le_floor.mpr (by exact_mod_cast h')
      omega

/-- `Real.log 10 > 1` (since `e < 10`). -/
theorem one_lt_log_ten : 1 < Real.log 10 := by
  rw [show (1 : ℝ) = Real.log (Real.exp 1) by rw [Real.log_exp]]
  apply Real.log_lt_log (Real.exp_pos 1)
  calc Real.exp 1 < 2.7182818286 := Real.exp_one_lt_d9
    _ < 10 := by norm_num

/-- C7: with `autoIterations` set, `adjustIterations` sets `maxIterations` to
`clamp(100·log10(1 + 3/viewportHeight), 100, 10000)` truncated to an integer;
`viewportHeight = 3` yields 100 (the minimum) and `viewportHeight = 3·10⁻¹⁰`
yields 1000; with `autoIterations` unset it is a no-op. -/
theorem C7_adjust_iterations :
    (∀ s : RenderState, s.autoIterations = false → adjustIterations s = s)
    ∧ (∀ s : RenderState, 0 < s.viewportHeight → s.autoIterations = true →
        (adjustIterations s).maxIterations =
          (ctrunc (max 100 (min 10000
            (100 * Real.logb 10 (1 + 3 / s.viewportHeight))))).toNat)
    ∧ (∀ s : RenderState, s.autoIterations = true → s.viewportHeight = 3 →
        (adjustIterations s).maxIterations = 100)
    ∧ (∀ s : RenderState, s.autoIterations = true → s.viewportHeight = 3 / 10 ^ 10 →
        (adjustIterations s).maxIterations = 1000) := by
  refine ⟨?_, ?_, ?_, ?_⟩
  · intro s ha
    simp [adjustIterations, ha]
  · intro s hv ha
    rw [adjustIterations, if_pos ha]
    dsimp only
    have hx : 0 ≤ 100 * Real.logb 10 (1 + 3 / s.viewportHeight) := by
      have h1 : (0 : ℝ) < 3 / s.viewportHeight := by positivity
      have h2 : 0 ≤ Real.logb 10 (1 + 3 / s.viewportHeight) :=
        Real.logb_nonneg (by norm_num) (by linarith)
      positivity
    rw [ctrunc_clamp_comm _ hx]
  · intro s ha hv
    rw [adjustIterations, if_pos ha]
    dsimp only
    rw [hv, show (1 : ℝ) + 3 / 3 = 2 by norm_num]
    have hpos : 0 ≤ Real.logb 10 2 := Real.logb_nonneg (by norm_num) (by norm_num)
    have hlt : Real.logb 10 2 < 1 := by
      rw [Real.logb, div_lt_one (Real.log_pos (by norm_num))]
      exact Real.log_lt_log (by norm_num) (by norm_num)
    have hct : ctrunc (100 * Real.logb 10 2) = ⌊100 * Real.logb 10 2⌋ :=
      if_pos (by positivity)
    have hfl0 : 0 ≤ ⌊100 * Real.logb 10 2⌋ := Int.floor_nonneg.mpr (by positivity)
    have hfl : ⌊100 * Real.logb 10 2⌋ < 100 := Int.floor_lt.mpr (by push_cast; linarith)
    rw [hct]
    omega
  · intro s ha hv
    rw [adjustIterations, if_pos ha]
    dsimp only
    rw [hv, show (3 : ℝ) / (3 / 10 ^ 10) = 10 ^ 10 by norm_num]
    have hlog10 : 0 < Real.log 10 := Real.log_pos (by norm_num)
    have hpow : Real.log ((10 : ℝ) ^ (10 : ℕ)) = 10 * Real.log 10 := by
      rw [Real.log_pow]
      norm_num
    have hlow : 10 * Real.log 10 ≤ Real.log (1 + (10 : ℝ) ^ 10) := by
      rw [← hpow]
      apply Real.log_le_log (by positivity)
      norm_num
    have hfact : (1 + (10 : ℝ) ^ 10) = (10 : ℝ) ^ 10 * (1 + 1 / 10 ^ 10) := by
      field_simp
      ring
    have hsmall0 : 0 ≤ Real.log (1 + 1 / (10 : ℝ) ^ 10) :=
      Real.log_nonneg (by norm_num)
    have hsmall : Real.log (1 + 1 / (10 : ℝ) ^ 10) ≤ 1 / 10 ^ 10 := by
      have h6 := Real.log_le_sub_one_of_pos
        (show (0 : ℝ) < 1 + 1 / 10 ^ 10 by positivity)
      linarith
    have hup : Real.log (1 + (10 : ℝ) ^ 10) ≤ 10 * Real.log 10 + 1 / 10 ^ 10 := by
      rw [hfact, Real.log_mul (by positivity) (by positivity), hpow]
      linarith
    have hlogb : Real.logb 10 (1 + (10 : ℝ) ^ 10) =
        Real.log (1 + (10 : ℝ) ^ 10) / Real.log 10 := rfl
    have e2 : (10 * Real.log 10) / Real.log 10 ≤
        Real.log (1 + (10 : ℝ) ^ 10) / Real.log 10 :=
      (div_le_div_iff_of_pos_right hlog10).mpr hlow
    have e1 : (10 * Real.log 10) / Real.log 10 = 10 := by
      field_simp
    have e3 : Real.log (1 + (10 : ℝ) ^ 10) / Real.log 10 ≤
        (10 * Real.log 10 + 1 / 10 ^ 10) / Real.log 10 :=
      (div_le_div_iff_of_pos_right hlog10).mpr hup
    have e4 : (10 * Real.log 10 + 1 / (10 : ℝ) ^ 10) / Real.log 10 =
        10 + (1 / (10 : ℝ) ^ 10) / Real.log 10 := by
      field_simp
      ring
    have e5 : (1 / (10 : ℝ) ^ 10) / Real.log 10 < 1 / (10 : ℝ) ^ 10 :=
      div_lt_self (by norm_num) one_lt_log_ten
    have hlb : (1000 : ℝ) ≤ 100 * Real.logb 10 (1 + (10 : ℝ) ^ 10) := by
      rw [hlogb]
      nlinarith [e1, e2]
    have hub : 100 * Real.logb 10 (1 + (10 : ℝ) ^ 10) < 1001 := by
      rw [hlogb]
      nlinarith [e3, e4, e5]
    have hfl : ⌊100 * Real.logb 10 (1 + (10 : ℝ) ^ 10)⌋ = 1000 := by
      apply Int.floor_eq_iff.mpr
      constructor
      · push_cast
        exact hlb
      · push_cast
        linarith
    have hct : ctrunc (100 * Real.logb 10 (1 + (10 : ℝ) ^ 10)) = 1000 := by
      rw [ctrunc, if_pos (by linarith : (0 : ℝ) ≤ 100 * Real.logb 10 (1 + (10 : ℝ) ^ 10)), hfl]
    rw [hct]
    decide

/-- Witness for C7: the no-op case, the low-zoom clamp to 100, and the deep
zoom `3·10⁻¹⁰ → 1000`, at concrete render states. -/
theorem C7_adjust_iterations_witness :
    adjustIterations { initialRenderState with autoIterations := false } =
      { initialRenderState with autoIterations := false }
    ∧ (adjustIterations initialRenderState).maxIterations = 100
    ∧ (adjustIterations
        { initialRenderState with viewportHeight := 3 / 10 ^ 10 }).maxIterations = 1000 :=
  ⟨C7_adjust_iterations.1 _ rfl,
   C7_adjust_iterations.2.2.1 initialRenderState rfl rfl,
   C7_adjust_iterations.2.2.2 _ rfl rfl⟩

/-! ### Claims about the tiled renderer -/

/-- Rendering `k` rows from `y` and then `m` rows from `y + k` is rendering
`k + m` rows from `y`. -/
theorem renderRows_append (s : RenderState) (w h : ℕ) :
    ∀ (k y m : ℕ) (buf : Buf),
      renderRows s w h (y + k) m (renderRows s w h y k buf) =
        renderRows s w h y (k + m) buf := by
  intro k
  induction k with
  | zero =>
    intro y m buf
    simp [renderRows]
  | succ k ih =>
    intro y m buf
    have h1 : renderRows s w h y (k + 1) buf =
        renderRows s w h (y + 1) k (renderRow s w h y buf) := rfl
    have h2 : renderRows s w h y (k + 1 + m) buf =
        renderRows s w h (y + 1) (k + m) (renderRow s w h y buf) := by
      rw [show k + 1 + m = (k + m) + 1 by omega]
      rfl
    rw [h1, h2, show y + (k + 1) = (y + 1) + k by omega]
    exact ih (y + 1) m (renderRow s w h y buf)

/-- For any worker count `N ≥ 1` the sequential composition of the `N` band
regions renders exactly rows `0 ≤ y < height`. -/
theorem renderFractal_eq_renderRows (s : RenderState) (w h N : ℕ) (hN : 1 ≤ N)
    (buf : Buf) : renderFractal N s w h buf = renderRows s w h 0 h buf := by
  obtain ⟨K, rfl⟩ : ∃ K, N = K + 1 := ⟨N - 1, by omega⟩
  rw [renderFractal, List.range_succ, List.foldl_append]
  have hpref : ∀ k : ℕ, k ≤ K →
      (List.range k).foldl
        (fun b i =>
          renderFractalRegion s (bandStart (K + 1) h i) (bandEnd (K + 1) h i) w h b)
        buf =
      renderRows s w h 0 (k * (h / (K + 1))) buf := by
    intro k
    induction k with
    | zero =>
      intro _
      simp [renderRows]
    | succ k ih =>
      intro hk
      rw [List.range_succ, List.foldl_append]
      simp only [List.foldl_cons, List.foldl_nil]
      rw [ih (by omega), renderFractalRegion, bandStart, bandEnd,
        if_neg (by omega : ¬ k = K + 1 - 1)]
      rw [show (k + 1) * (h / (K + 1)) - k * (h / (K + 1)) = h / (K + 1) by
        rw [Nat.add_mul, Nat.one_mul, Nat.add_sub_cancel_left]]
      have hm := renderRows_append s w h (k * (h / (K + 1))) 0 (h / (K + 1)) buf
      rw [Nat.zero_add] at hm
      rw [hm, show k * (h / (K + 1)) + h / (K + 1) = (k + 1) * (h / (K + 1)) from
        (Nat.succ_mul k (h / (K + 1))).symm]
  simp only [List.foldl_cons, List.foldl_nil]
  rw [hpref K le_rfl, renderFractalRegion, bandStart, bandEnd,
    if_pos (by omega : K = K + 1 - 1)]
  have hle : K * (h / (K + 1)) ≤ h :=
    calc K * (h / (K + 1)) ≤ (K + 1) * (h / (K + 1)) :=
          Nat.mul_le_mul_right _ (by omega)
      _ ≤ h := by
          rw [Nat.mul_comm]
          exact Nat.div_mul_le_self h (K + 1)
  have hm := renderRows_append s w h (K * (h / (K + 1))) 0 (h - K * (h / (K + 1))) buf
  rw [Nat.zero_add] at hm
  rw [hm, show K * (h / (K + 1)) + (h - K * (h / (K + 1))) = h by omega]

/-- C8: `renderFractal` partitions the rows into `N` contiguous,
non-overlapping bands covering `[0, height)` — equal-sized (`height / N`
rows) except the last, which absorbs the remainder — and the filled buffer
is byte-identical for any two worker counts `N, M ≥ 1`. -/
theorem C8_render_bands (N M : ℕ) (s : RenderState) (w h : ℕ) (buf : Buf)
    (hN : 1 ≤ N) (hM : 1 ≤ M) :
    (∀ i, i + 1 < N → bandEnd N h i = bandStart N h (i + 1))
    ∧ bandStart N h 0 = 0
    ∧ bandEnd N h (N - 1) = h
    ∧ (∀ i, i + 1 < N → bandEnd N h i - bandStart N h i = h / N)
    ∧ bandEnd N h (N - 1) - bandStart N h (N - 1) = h - (N - 1) * (h / N)
    ∧ (∀ i, i < N → bandStart N h i ≤ bandEnd N h i)
    ∧ renderFractal N s w h buf = renderFractal M s w h buf := by
  refine ⟨?_, ?_, ?_, ?_, ?_, ?_, ?_⟩
  · intro i hi
    rw [bandEnd, if_neg (by omega), bandStart]
  · rw [bandStart, Nat.zero_mul]
  · rw [bandEnd, if_pos rfl]
  · intro i hi
    rw [bandEnd, if_neg (by omega), bandStart]
    rw [Nat.add_mul, Nat.one_mul, Nat.add_sub_cancel_left]
  · rw [bandEnd, if_pos rfl, bandStart]
  · intro i hi
    rw [bandStart, bandEnd]
    by_cases h' : i = N - 1
    · rw [if_pos h']
      subst h'
      calc (N - 1) * (h / N) ≤ N * (h / N) := Nat.mul_le_mul_right _ (by omega)
        _ ≤ h := by
            rw [Nat.mul_comm]
            exact Nat.div_mul_le_self h N
    · rw [if_neg h']
      exact Nat.mul_le_mul_right _ (by omega)
  · rw [renderFractal_eq_renderRows s w h N hN buf,
      renderFractal_eq_renderRows s w h M hM buf]

/-- Witness for C8: worker counts 1 and 8 on a concrete state, 64×64 image
and zeroed buffer. -/
theorem C8_render_bands_witness :
    (∀ i, i + 1 < 1 → bandEnd 1 64 i = bandStart 1 64 (i + 1))
    ∧ bandStart 1 64 0 = 0
    ∧ bandEnd 1 64 (1 - 1) = 64
    ∧ (∀ i, i + 1 < 1 → bandEnd 1 64 i - bandStart 1 64 i = 64 / 1)
    ∧ bandEnd 1 64 (1 - 1) - bandStart 1 64 (1 - 1) = 64 - (1 - 1) * (64 / 1)
    ∧ (∀ i, i < 1 → bandStart 1 64 i ≤ bandEnd 1 64 i)
    ∧ renderFractal 1 initialRenderState 64 64 (fun _ => 0) =
        renderFractal 8 initialRenderState 64 64 (fun _ => 0) :=
  C8_render_bands 1 8 initialRenderState 64 64 (fun _ => 0) (by norm_num) (by norm_num)
